import Mathlib

/-!
Shallow embedding of the GFET simulator (`src/model.py`) over the reals.

The Python class `GFETSimulatorAmbipolar` holds physical parameters set in
`__init__`, and exposes `carrier_density`, `drain_current`, `sweep` and
`load_custom_sweep`.  Machine floats are modelled as real numbers; the numpy
point generators `np.linspace` / `np.logspace` are modelled by `linspace` /
`logspace` below (for `num ≥ 2`, `np.linspace(a, b, num)` returns
`a + (b-a)*i/(num-1)` for `i = 0 .. num-1`, with the endpoint pinned to `b`,
which the real-valued formula gives exactly; for `num = 1` it returns `[a]`,
which the formula also gives since the numerator vanishes at `i = 0`).
-/

/-- The device model: the fields assigned by `__init__` in `src/model.py`
(lines 9-18). -/
structure GFETSimulatorAmbipolar where
  L : ℝ
  W : ℝ
  tox : ℝ
  mu : ℝ
  n0 : ℝ
  epsilon_0 : ℝ
  kappa : ℝ
  Cox : ℝ
  q : ℝ
  Vdirac : ℝ

namespace GFETSimulatorAmbipolar

/-- `__init__(channel_length, channel_width, tox, mobility,
intrinsic_carrier_density, dielectric_const, v_dirac)`: stores the parameters,
the constants `epsilon_0 = 8.854e-12` and `q = 1.602e-19`, and derives
`Cox = kappa * epsilon_0 / tox` (model.py lines 9-18; the trailing `print` is
console I/O, outside the embedded core). -/
noncomputable def init (channel_length channel_width tox mobility
    intrinsic_carrier_density dielectric_const v_dirac : ℝ) :
    GFETSimulatorAmbipolar where
  L := channel_length
  W := channel_width
  tox := tox
  mu := mobility
  n0 := intrinsic_carrier_density
  epsilon_0 := 8.854e-12
  kappa := dielectric_const
  Cox := dielectric_const * 8.854e-12 / tox
  q := 1.602e-19
  Vdirac := v_dirac

/-- `carrier_density(Vgs) = sqrt(n0**2 + (Cox / q * (Vgs - Vdirac))**2)`
(model.py line 25). -/
noncomputable def carrier_density (m : GFETSimulatorAmbipolar) (Vgs : ℝ) : ℝ :=
  Real.sqrt (m.n0 ^ 2 + (m.Cox / m.q * (Vgs - m.Vdirac)) ^ 2)

/-- `drain_current(Vgs, Vds) = mu * (W/L) * q * carrier_density(Vgs) * Vds`
(model.py lines 31-33). -/
noncomputable def drain_current (m : GFETSimulatorAmbipolar) (Vgs Vds : ℝ) : ℝ :=
  m.mu * (m.W / m.L) * m.q * m.carrier_density Vgs * Vds

end GFETSimulatorAmbipolar

/-- The `i`-th of `num` evenly spaced values from `start` to `stop`:
`start + (stop - start) * i / (num - 1)`.  For `num ≥ 2` this is the exact
real-arithmetic value of `np.linspace(start, stop, num)[i]`; at `i = 0` it is
`start` and (for `num ≥ 2`) at `i = num - 1` it is `stop`. -/
noncomputable def linVal (start stop : ℝ) (num i : ℕ) : ℝ :=
  start + (stop - start) * (i : ℝ) / ((num - 1 : ℕ) : ℝ)

/-- `np.linspace(start, stop, num)` as a list of reals. -/
noncomputable def linspace (start stop : ℝ) (num : ℕ) : List ℝ :=
  (List.range num).map (linVal start stop num)

/-- `np.logspace(e1, e2, num)`: `10 ** x` over `np.linspace(e1, e2, num)`. -/
noncomputable def logspace (e1 e2 : ℝ) (num : ℕ) : List ℝ :=
  (linspace e1 e2 num).map (fun x => (10 : ℝ) ^ x)

/-- The dual-linear axis (model.py lines 46-53): the concatenation of
`np.linspace(start, (start+stop)/2, num//2)` and
`np.linspace((start+stop)/2, stop, num//2)`. -/
noncomputable def dualLinear (start stop : ℝ) (num : ℕ) : List ℝ :=
  linspace start ((start + stop) / 2) (num / 2) ++
    linspace ((start + stop) / 2) stop (num / 2)

/-- One row of the result table: the tuple `(Vgs, Vds, Ids)` appended at
model.py line 61 (a row of the returned DataFrame). -/
structure SweepRecord where
  Vgs : ℝ
  Vds : ℝ
  Ids : ℝ

/-- The error raised at model.py line 55 for an unknown `sweep_type`
(a Python `ValueError`). -/
inductive SweepError where
  | invalidSweepType
  deriving DecidableEq

namespace GFETSimulatorAmbipolar

/-- The nested tabulation loop (model.py lines 57-61): for every `Vgs` in
`vgsValues` (outer), for every `Vds` in `vdsValues` (inner), append
`(Vgs, Vds, drain_current(Vgs, Vds))`. -/
noncomputable def tabulate (m : GFETSimulatorAmbipolar) :
    List ℝ → List ℝ → List SweepRecord
  | [], _ => []
  | vgs :: rest, vdsValues =>
      vdsValues.map (fun vds => ⟨vgs, vds, m.drain_current vgs vds⟩) ++
        m.tabulate rest vdsValues

/-- `sweep(Vgs_range, Vds_range, sweep_type, num_points)` (model.py lines
35-64): dispatch on `sweep_type` to generate the two bias axes, raising
`ValueError` on an unknown value, then tabulate over the Cartesian product. -/
noncomputable def sweep (m : GFETSimulatorAmbipolar) (VgsRange VdsRange : ℝ × ℝ)
    (sweepType : String) (numPoints : ℕ) :
    Except SweepError (List SweepRecord) :=
  if sweepType = "linear" then
    Except.ok (m.tabulate (linspace VgsRange.1 VgsRange.2 numPoints)
      (linspace VdsRange.1 VdsRange.2 numPoints))
  else if sweepType = "log" then
    Except.ok (m.tabulate
      (logspace (Real.logb 10 VgsRange.1) (Real.logb 10 VgsRange.2) numPoints)
      (logspace (Real.logb 10 VdsRange.1) (Real.logb 10 VdsRange.2) numPoints))
  else if sweepType = "dual-linear" then
    Except.ok (m.tabulate (dualLinear VgsRange.1 VgsRange.2 numPoints)
      (dualLinear VdsRange.1 VdsRange.2 numPoints))
  else
    Except.error SweepError.invalidSweepType

/-- `load_custom_sweep` (model.py lines 66-78) with the CSV columns already
read by the external I/O collaborator: the same Cartesian tabulation over the
supplied value lists. -/
noncomputable def load_custom_sweep (m : GFETSimulatorAmbipolar)
    (VgsValues VdsValues : List ℝ) : List SweepRecord :=
  m.tabulate VgsValues VdsValues

/-- State-passing form of `carrier_density`: the Python method body (model.py
line 25) contains no assignment to `self`, so the post-state is the input
model. -/
noncomputable def carrier_densityS (m : GFETSimulatorAmbipolar) (Vgs : ℝ) :
    ℝ × GFETSimulatorAmbipolar :=
  (m.carrier_density Vgs, m)

/-- State-passing form of `drain_current` (model.py lines 31-33): no assignment
to `self`, so the post-state is the input model. -/
noncomputable def drain_currentS (m : GFETSimulatorAmbipolar) (Vgs Vds : ℝ) :
    ℝ × GFETSimulatorAmbipolar :=
  (m.drain_current Vgs Vds, m)

/-- State-passing form of `sweep` (model.py lines 35-64): the method only reads
`self`, so the post-state is the input model. -/
noncomputable def sweepS (m : GFETSimulatorAmbipolar) (VgsRange VdsRange : ℝ × ℝ)
    (sweepType : String) (numPoints : ℕ) :
    Except SweepError (List SweepRecord) × GFETSimulatorAmbipolar :=
  (m.sweep VgsRange VdsRange sweepType numPoints, m)

/-- State-passing form of `load_custom_sweep` (model.py lines 66-78): the
method only reads `self`, so the post-state is the input model. -/
noncomputable def load_custom_sweepS (m : GFETSimulatorAmbipolar)
    (VgsValues VdsValues : List ℝ) :
    List SweepRecord × GFETSimulatorAmbipolar :=
  (m.load_custom_sweep VgsValues VdsValues, m)

end GFETSimulatorAmbipolar

open GFETSimulatorAmbipolar

/-- C1: for every finite real `Vgs`, `carrier_density(Vgs)` equals
`sqrt(n0^2 + (Cox/q * (Vgs - Vdirac))^2)` with `Cox = kappa * epsilon_0 / tox`
derived at construction and `q = 1.602e-19`; and (for the valid inputs
`n0 ≥ 0`) `carrier_density(Vdirac) = n0` exactly. -/
theorem carrier_density_spec (cl cw tx mob icd dc vd : ℝ) (hn0 : 0 ≤ icd)
    (Vgs : ℝ) :
    (init cl cw tx mob icd dc vd).carrier_density Vgs =
      Real.sqrt (icd ^ 2 +
        (dc * 8.854e-12 / tx / 1.602e-19 * (Vgs - vd)) ^ 2) ∧
    (init cl cw tx mob icd dc vd).carrier_density vd = icd := by
  constructor
  · rfl
  · show Real.sqrt (icd ^ 2 +
        (dc * 8.854e-12 / tx / 1.602e-19 * (vd - vd)) ^ 2) = icd
    rw [sub_self, mul_zero]
    norm_num
    exact Real.sqrt_sq hn0

/-- Witness for C1 at the concrete device of `src/main.py` and `Vgs = 0.5`. -/
theorem carrier_density_spec_witness :
    (0 : ℝ) ≤ 1e16 ∧
    ((init 1e-6 10e-6 300e-9 0.1 1e16 3.9 0.2).carrier_density 0.5 =
      Real.sqrt ((1e16 : ℝ) ^ 2 +
        ((3.9 : ℝ) * 8.854e-12 / 300e-9 / 1.602e-19 * ((0.5 : ℝ) - 0.2)) ^ 2) ∧
    (init 1e-6 10e-6 300e-9 0.1 1e16 3.9 0.2).carrier_density 0.2 = 1e16) :=
  ⟨by norm_num,
    carrier_density_spec 1e-6 10e-6 300e-9 0.1 1e16 3.9 0.2 (by norm_num) 0.5⟩

/-- C2 counterexample: the claim glosses the concrete return value as "about
1.602e-3", but the program returns the product
`0.1 * 10 * 1.602e-19 * 1e16 * 0.1`, which equals exactly `1.602e-4` — ten
times smaller, more than `1e-3` away from the glossed value. -/
theorem drain_current_value_cex :
    (init 1e-6 10e-6 300e-9 0.1 1e16 3.9 0.2).drain_current 0.2 0.1 =
      1.602e-4 ∧
    (1.602e-4 : ℝ) * 10 = 1.602e-3 ∧
    |(1.602e-4 : ℝ) - 1.602e-3| > 1e-3 := by
  have hcd : (init 1e-6 10e-6 300e-9 0.1 1e16 3.9 0.2).carrier_density 0.2 =
      1e16 := by
    show Real.sqrt ((1e16 : ℝ) ^ 2 +
        (3.9 * 8.854e-12 / 300e-9 / 1.602e-19 * ((0.2 : ℝ) - 0.2)) ^ 2) = 1e16
    rw [sub_self, mul_zero, zero_pow (two_ne_zero), add_zero]
    exact Real.sqrt_sq (by norm_num)
  refine ⟨?_, by norm_num, ?_⟩
  · show (init 1e-6 10e-6 300e-9 0.1 1e16 3.9 0.2).mu *
        ((init 1e-6 10e-6 300e-9 0.1 1e16 3.9 0.2).W /
          (init 1e-6 10e-6 300e-9 0.1 1e16 3.9 0.2).L) *
        (init 1e-6 10e-6 300e-9 0.1 1e16 3.9 0.2).q *
        (init 1e-6 10e-6 300e-9 0.1 1e16 3.9 0.2).carrier_density 0.2 * 0.1 =
        1.602e-4
    rw [hcd]
    show (0.1 : ℝ) * (10e-6 / 1e-6) * 1.602e-19 * 1e16 * 0.1 = 1.602e-4
    norm_num
  · rw [abs_of_neg (show (1.602e-4 : ℝ) - 1.602e-3 < 0 by norm_num)]
    norm_num

/-- C2 (amended: the concrete return value is exactly `1.602e-4`, not "about
1.602e-3"): `drain_current(Vgs, Vds) = mu * (W/L) * q * carrier_density(Vgs)
* Vds` for every model and inputs; for the concrete device
`(L=1e-6, W=10e-6, tox=300e-9, mu=0.1, n0=1e16, Vdirac=0.2)`,
`drain_current(0.2, 0.1)` returns `0.1 * 10 * 1.602e-19 * 1e16 * 0.1`
(the gate term vanishes at `Vgs = Vdirac`), which equals `1.602e-4`. -/
theorem drain_current_spec (m : GFETSimulatorAmbipolar) (Vgs Vds : ℝ) :
    m.drain_current Vgs Vds =
      m.mu * (m.W / m.L) * m.q * m.carrier_density Vgs * Vds ∧
    (init 1e-6 10e-6 300e-9 0.1 1e16 3.9 0.2).drain_current 0.2 0.1 =
      0.1 * 10 * 1.602e-19 * 1e16 * 0.1 ∧
    (init 1e-6 10e-6 300e-9 0.1 1e16 3.9 0.2).drain_current 0.2 0.1 =
      1.602e-4 := by
  have hcd : (init 1e-6 10e-6 300e-9 0.1 1e16 3.9 0.2).carrier_density 0.2 =
      1e16 := by
    show Real.sqrt ((1e16 : ℝ) ^ 2 +
        (3.9 * 8.854e-12 / 300e-9 / 1.602e-19 * ((0.2 : ℝ) - 0.2)) ^ 2) = 1e16
    rw [sub_self, mul_zero, zero_pow (two_ne_zero), add_zero]
    exact Real.sqrt_sq (by norm_num)
  have hval : (init 1e-6 10e-6 300e-9 0.1 1e16 3.9 0.2).drain_current 0.2 0.1 =
      (0.1 : ℝ) * (10e-6 / 1e-6) * 1.602e-19 * 1e16 * 0.1 := by
    show (init 1e-6 10e-6 300e-9 0.1 1e16 3.9 0.2).mu *
        ((init 1e-6 10e-6 300e-9 0.1 1e16 3.9 0.2).W /
          (init 1e-6 10e-6 300e-9 0.1 1e16 3.9 0.2).L) *
        (init 1e-6 10e-6 300e-9 0.1 1e16 3.9 0.2).q *
        (init 1e-6 10e-6 300e-9 0.1 1e16 3.9 0.2).carrier_density 0.2 * 0.1 =
        (0.1 : ℝ) * (10e-6 / 1e-6) * 1.602e-19 * 1e16 * 0.1
    rw [hcd]
    rfl
  refine ⟨rfl, ?_, ?_⟩
  · rw [hval]
    norm_num
  · rw [hval]
    norm_num

/-- C7: `carrier_density` is symmetric about the Dirac point:
`carrier_density(Vdirac + d) = carrier_density(Vdirac - d)` for every model
and every real `d`. -/
theorem carrier_density_symm (m : GFETSimulatorAmbipolar) (d : ℝ) :
    m.carrier_density (m.Vdirac + d) = m.carrier_density (m.Vdirac - d) := by
  unfold carrier_density
  congr 1
  ring

/-- C8: `drain_current` is homogeneous in `Vds` for fixed `Vgs`:
`drain_current(Vgs, 2*Vds) = 2 * drain_current(Vgs, Vds)`. -/
theorem drain_current_linear_Vds (m : GFETSimulatorAmbipolar) (Vgs Vds : ℝ) :
    m.drain_current Vgs (2 * Vds) = 2 * m.drain_current Vgs Vds := by
  unfold drain_current
  ring

/-- `linVal` at index `0` is the range start. -/
theorem linVal_zero (a b : ℝ) (n : ℕ) : linVal a b n 0 = a := by
  simp [linVal]

/-- For `n ≥ 2`, `linVal` at index `n - 1` is the range stop. -/
theorem linVal_last (a b : ℝ) (n : ℕ) (h : 2 ≤ n) : linVal a b n (n - 1) = b := by
  have h1 : ((n - 1 : ℕ) : ℝ) ≠ 0 := by
    have h2 : n - 1 ≠ 0 := by omega
    exact_mod_cast h2
  unfold linVal
  rw [mul_div_assoc, div_self h1, mul_one]
  ring

/-- Consecutive `linVal` values differ by the constant step
`(stop - start) / (n - 1)`: the generated points are evenly spaced. -/
theorem linVal_step (a b : ℝ) (n i : ℕ) :
    linVal a b n (i + 1) - linVal a b n i = (b - a) / ((n - 1 : ℕ) : ℝ) := by
  unfold linVal
  push_cast
  ring

/-- `np.linspace(a, b, n)` yields `n` points. -/
theorem linspace_length (a b : ℝ) (n : ℕ) : (linspace a b n).length = n := by
  simp [linspace]

/-- The `i`-th generated linspace point is `linVal a b n i`. -/
theorem linspace_get (a b : ℝ) (n i : ℕ) (h : i < n) :
    (linspace a b n)[i]? = some (linVal a b n i) := by
  simp [linspace, List.getElem?_range h]

/-- The first linspace point is the range start. -/
theorem linspace_get_zero (a b : ℝ) (n : ℕ) (h : 0 < n) :
    (linspace a b n)[0]? = some a := by
  rw [linspace_get a b n 0 h, linVal_zero]

/-- For `n ≥ 2`, the last linspace point is the range stop. -/
theorem linspace_get_last (a b : ℝ) (n : ℕ) (h : 2 ≤ n) :
    (linspace a b n)[n - 1]? = some b := by
  rw [linspace_get a b n (n - 1) (by omega), linVal_last a b n h]

/-- The tabulation loop produces `len(Vgs_values) * len(Vds_values)` records. -/
theorem tabulate_length (m : GFETSimulatorAmbipolar) (xs ys : List ℝ) :
    (m.tabulate xs ys).length = xs.length * ys.length := by
  induction xs with
  | nil => simp [GFETSimulatorAmbipolar.tabulate]
  | cons x xs ih =>
    simp only [GFETSimulatorAmbipolar.tabulate, List.length_append,
      List.length_map, List.length_cons, ih, Nat.succ_mul]
    ring

/-- Record `i * len(ys) + j` of the tabulation is built from the `i`-th outer
(`Vgs`) value and the `j`-th inner (`Vds`) value: the table is ordered by an
outer loop over `Vgs` and an inner loop over `Vds`. -/
theorem tabulate_get (m : GFETSimulatorAmbipolar) (xs ys : List ℝ) (i j : ℕ)
    (x y : ℝ) (hx : xs[i]? = some x) (hy : ys[j]? = some y) :
    (m.tabulate xs ys)[i * ys.length + j]? =
      some ⟨x, y, m.drain_current x y⟩ := by
  induction xs generalizing i with
  | nil => simp at hx
  | cons x0 xs ih =>
    have hj : j < ys.length := by
      by_contra hc
      rw [List.getElem?_eq_none (by omega)] at hy
      exact Option.noConfusion hy
    cases i with
    | zero =>
      have hx0 : x0 = x := by simpa using hx
      subst hx0
      simp only [GFETSimulatorAmbipolar.tabulate, Nat.zero_mul, Nat.zero_add]
      rw [List.getElem?_append_left (by simpa using hj)]
      simp [List.getElem?_eq_getElem hj,
        List.getElem?_eq_some_iff.mp hy |>.choose_spec]
    | succ i' =>
      simp only [GFETSimulatorAmbipolar.tabulate]
      have hidx : (i' + 1) * ys.length + j =
          i' * ys.length + j + ys.length := by ring
      rw [hidx, List.getElem?_append_right (by
        simp only [List.length_map]
        exact Nat.le_add_left _ _)]
      simp only [List.length_map, Nat.add_sub_cancel]
      exact ih i' (by simpa using hx)

/-- The dual-linear axis has `2 * (num_points // 2)` points. -/
theorem dualLinear_length (a b : ℝ) (n : ℕ) :
    (dualLinear a b n).length = 2 * (n / 2) := by
  simp [dualLinear, linspace_length]
  ring

/-- For `n // 2 ≥ 2`, the last point of the first half-segment of a
dual-linear axis is the midpoint. -/
theorem dualLinear_get_midL (a b : ℝ) (n : ℕ) (h : 2 ≤ n / 2) :
    (dualLinear a b n)[n / 2 - 1]? = some ((a + b) / 2) := by
  unfold dualLinear
  rw [List.getElem?_append_left (by
    rw [linspace_length]
    omega)]
  exact linspace_get_last a ((a + b) / 2) (n / 2) h

/-- For `n // 2 ≥ 1`, the first point of the second half-segment of a
dual-linear axis (at offset `n // 2`) is again the midpoint. -/
theorem dualLinear_get_midR (a b : ℝ) (n : ℕ) (h : 1 ≤ n / 2) :
    (dualLinear a b n)[n / 2]? = some ((a + b) / 2) := by
  unfold dualLinear
  rw [List.getElem?_append_right (by rw [linspace_length])]
  rw [linspace_length, Nat.sub_self]
  exact linspace_get_zero ((a + b) / 2) b (n / 2) h

/-- C3 counterexample: with `num_points = 1` and ranges `(0, 1)`, the linear
sweep yields the single record `(0, 0, Ids)` — its `Vgs`/`Vds` (also the last
record) are the range starts, not the range stops `1`, refuting the claim for
`N = 1`. -/
theorem sweep_linear_claim_cex :
    (init 1e-6 10e-6 300e-9 0.1 1e16 3.9 0.2).sweep (0, 1) (0, 1) "linear" 1 =
      Except.ok [⟨0, 0,
        (init 1e-6 10e-6 300e-9 0.1 1e16 3.9 0.2).drain_current 0 0⟩] ∧
    (0 : ℝ) ≠ 1 := by
  constructor
  · unfold GFETSimulatorAmbipolar.sweep
    rw [if_pos rfl]
    have hls : linspace (0 : ℝ) 1 1 = [0] := by
      simp [linspace, List.range_succ, linVal]
    rw [hls]
    simp [GFETSimulatorAmbipolar.tabulate]
  · norm_num

/-- C3 (amended to `num_points ≥ 2`): a linear sweep yields exactly `N * N`
records; record `i * N + j` pairs the `i`-th generated `Vgs` value (outer
loop) with the `j`-th generated `Vds` value (inner loop); the first record
carries the two range starts and the last the two range stops. -/
theorem sweep_linear_spec (m : GFETSimulatorAmbipolar) (a1 b1 a2 b2 : ℝ)
    (N i j : ℕ) (hN : 2 ≤ N) (hi : i < N) (hj : j < N) :
    m.sweep (a1, b1) (a2, b2) "linear" N =
      Except.ok (m.tabulate (linspace a1 b1 N) (linspace a2 b2 N)) ∧
    (m.tabulate (linspace a1 b1 N) (linspace a2 b2 N)).length = N * N ∧
    (m.tabulate (linspace a1 b1 N) (linspace a2 b2 N))[i * N + j]? =
      some ⟨linVal a1 b1 N i, linVal a2 b2 N j,
        m.drain_current (linVal a1 b1 N i) (linVal a2 b2 N j)⟩ ∧
    (m.tabulate (linspace a1 b1 N) (linspace a2 b2 N)).head? =
      some ⟨a1, a2, m.drain_current a1 a2⟩ ∧
    (m.tabulate (linspace a1 b1 N) (linspace a2 b2 N)).getLast? =
      some ⟨b1, b2, m.drain_current b1 b2⟩ := by
  refine ⟨?_, ?_, ?_, ?_, ?_⟩
  · unfold GFETSimulatorAmbipolar.sweep
    rw [if_pos rfl]
  · rw [tabulate_length, linspace_length, linspace_length]
  · have h := tabulate_get m (linspace a1 b1 N) (linspace a2 b2 N) i j _ _
      (linspace_get a1 b1 N i hi) (linspace_get a2 b2 N j hj)
    rwa [linspace_length] at h
  · rw [List.head?_eq_getElem?]
    have h := tabulate_get m (linspace a1 b1 N) (linspace a2 b2 N) 0 0 a1 a2
      (linspace_get_zero a1 b1 N (by omega))
      (linspace_get_zero a2 b2 N (by omega))
    simpa using h
  · rw [List.getLast?_eq_getElem?, tabulate_length, linspace_length,
      linspace_length]
    have h := tabulate_get m (linspace a1 b1 N) (linspace a2 b2 N)
      (N - 1) (N - 1) b1 b2 (linspace_get_last a1 b1 N hN)
      (linspace_get_last a2 b2 N hN)
    rw [linspace_length] at h
    have hidx : N * N - 1 = (N - 1) * N + (N - 1) := by
      cases N with
      | zero => omega
      | succ n =>
        have h1 : (n + 1) * (n + 1) = n * (n + 1) + n + 1 := by ring
        simp only [Nat.succ_sub_one, h1, Nat.add_sub_cancel]
    rw [hidx]
    exact h

/-- Witness for C3 at the concrete device of `src/main.py`, ranges `(0, 1)`,
`N = 2`, `i = 1`, `j = 0`. -/
theorem sweep_linear_spec_witness :
    2 ≤ 2 ∧ 1 < 2 ∧ 0 < 2 ∧
    ((init 1e-6 10e-6 300e-9 0.1 1e16 3.9 0.2).sweep (0, 1) (0, 1) "linear" 2 =
      Except.ok ((init 1e-6 10e-6 300e-9 0.1 1e16 3.9 0.2).tabulate
        (linspace 0 1 2) (linspace 0 1 2)) ∧
    ((init 1e-6 10e-6 300e-9 0.1 1e16 3.9 0.2).tabulate (linspace 0 1 2)
      (linspace 0 1 2)).length = 2 * 2 ∧
    ((init 1e-6 10e-6 300e-9 0.1 1e16 3.9 0.2).tabulate (linspace 0 1 2)
      (linspace 0 1 2))[1 * 2 + 0]? =
      some ⟨linVal 0 1 2 1, linVal 0 1 2 0,
        (init 1e-6 10e-6 300e-9 0.1 1e16 3.9 0.2).drain_current
          (linVal 0 1 2 1) (linVal 0 1 2 0)⟩ ∧
    ((init 1e-6 10e-6 300e-9 0.1 1e16 3.9 0.2).tabulate (linspace 0 1 2)
      (linspace 0 1 2)).head? =
      some ⟨0, 0, (init 1e-6 10e-6 300e-9 0.1 1e16 3.9 0.2).drain_current 0 0⟩ ∧
    ((init 1e-6 10e-6 300e-9 0.1 1e16 3.9 0.2).tabulate (linspace 0 1 2)
      (linspace 0 1 2)).getLast? =
      some ⟨1, 1,
        (init 1e-6 10e-6 300e-9 0.1 1e16 3.9 0.2).drain_current 1 1⟩) :=
  ⟨by norm_num, by norm_num, by norm_num,
    sweep_linear_spec (init 1e-6 10e-6 300e-9 0.1 1e16 3.9 0.2) 0 1 0 1 2 1 0
      (by norm_num) (by norm_num) (by norm_num)⟩

/-- C4: for every `sweep_type` other than `linear`, `log` and `dual-linear`,
`sweep` fails with the invalid-argument error, producing no records, and the
model state is unchanged. -/
theorem sweep_invalid_type (m : GFETSimulatorAmbipolar) (r1 r2 : ℝ × ℝ)
    (st : String) (N : ℕ) (h1 : st ≠ "linear") (h2 : st ≠ "log")
    (h3 : st ≠ "dual-linear") :
    m.sweep r1 r2 st N = Except.error SweepError.invalidSweepType ∧
    (m.sweepS r1 r2 st N).2 = m := by
  refine ⟨?_, rfl⟩
  unfold GFETSimulatorAmbipolar.sweep
  rw [if_neg h1, if_neg h2, if_neg h3]

/-- Witness for C4 at `sweep_type = "bogus"`. -/
theorem sweep_invalid_type_witness :
    ("bogus" : String) ≠ "linear" ∧ ("bogus" : String) ≠ "log" ∧
    ("bogus" : String) ≠ "dual-linear" ∧
    ((init 1e-6 10e-6 300e-9 0.1 1e16 3.9 0.2).sweep (0, 1) (0, 1) "bogus"
        100 = Except.error SweepError.invalidSweepType ∧
      ((init 1e-6 10e-6 300e-9 0.1 1e16 3.9 0.2).sweepS (0, 1) (0, 1) "bogus"
          100).2 = init 1e-6 10e-6 300e-9 0.1 1e16 3.9 0.2) :=
  ⟨by decide, by decide, by decide,
    sweep_invalid_type _ _ _ _ _ (by decide) (by decide) (by decide)⟩

/-- C5: a dual-linear sweep uses, on each bias axis, the concatenation of two
evenly spaced half-segments of `num_points // 2` points each — the first from
`start` to the midpoint `(start+stop)/2`, the second from the midpoint to
`stop` — for a total of `2 * (num_points // 2)` points per axis, which is
`num_points - num_points % 2` (one less than `num_points` when it is odd);
within a half-segment consecutive points differ by the constant step of that
segment (for every `num_points`, including `N ≤ 3` where the axes are empty
or hold a single point per half-segment, and for every index `i`; when the
half-segment length `N // 2` is `0` or `1` both sides of the step identities
are `0` under the division-by-zero convention). -/
theorem sweep_dual_linear_halves (m : GFETSimulatorAmbipolar)
    (a1 b1 a2 b2 : ℝ) (N i : ℕ) :
    m.sweep (a1, b1) (a2, b2) "dual-linear" N =
      Except.ok (m.tabulate
        (linspace a1 ((a1 + b1) / 2) (N / 2) ++
          linspace ((a1 + b1) / 2) b1 (N / 2))
        (linspace a2 ((a2 + b2) / 2) (N / 2) ++
          linspace ((a2 + b2) / 2) b2 (N / 2))) ∧
    (dualLinear a1 b1 N).length = 2 * (N / 2) ∧
    (dualLinear a2 b2 N).length = 2 * (N / 2) ∧
    2 * (N / 2) = N - N % 2 ∧
    linVal a1 ((a1 + b1) / 2) (N / 2) (i + 1) -
        linVal a1 ((a1 + b1) / 2) (N / 2) i =
      ((a1 + b1) / 2 - a1) / ((N / 2 - 1 : ℕ) : ℝ) ∧
    linVal ((a1 + b1) / 2) b1 (N / 2) (i + 1) -
        linVal ((a1 + b1) / 2) b1 (N / 2) i =
      (b1 - (a1 + b1) / 2) / ((N / 2 - 1 : ℕ) : ℝ) ∧
    linVal a2 ((a2 + b2) / 2) (N / 2) (i + 1) -
        linVal a2 ((a2 + b2) / 2) (N / 2) i =
      ((a2 + b2) / 2 - a2) / ((N / 2 - 1 : ℕ) : ℝ) ∧
    linVal ((a2 + b2) / 2) b2 (N / 2) (i + 1) -
        linVal ((a2 + b2) / 2) b2 (N / 2) i =
      (b2 - (a2 + b2) / 2) / ((N / 2 - 1 : ℕ) : ℝ) := by
  refine ⟨?_, dualLinear_length a1 b1 N, dualLinear_length a2 b2 N, by omega,
    linVal_step _ _ _ _, linVal_step _ _ _ _, linVal_step _ _ _ _,
    linVal_step _ _ _ _⟩
  unfold GFETSimulatorAmbipolar.sweep
  rw [if_neg (by decide), if_neg (by decide), if_pos rfl]
  rfl

/-- Witness for C5 at ranges `(0, 1)`, `num_points = 5` (odd), `i = 0`. -/
theorem sweep_dual_linear_halves_witness :
    ((init 1e-6 10e-6 300e-9 0.1 1e16 3.9 0.2).sweep (0, 1) (0, 1)
        "dual-linear" 5 =
      Except.ok ((init 1e-6 10e-6 300e-9 0.1 1e16 3.9 0.2).tabulate
        (linspace 0 ((0 + 1) / 2) (5 / 2) ++ linspace ((0 + 1) / 2) 1 (5 / 2))
        (linspace 0 ((0 + 1) / 2) (5 / 2) ++
          linspace ((0 + 1) / 2) 1 (5 / 2))) ∧
    (dualLinear 0 1 5).length = 2 * (5 / 2) ∧
    (dualLinear 0 1 5).length = 2 * (5 / 2) ∧
    2 * (5 / 2) = 5 - 5 % 2 ∧
    linVal 0 ((0 + 1) / 2) (5 / 2) (0 + 1) - linVal 0 ((0 + 1) / 2) (5 / 2) 0 =
      ((0 + 1) / 2 - 0) / ((5 / 2 - 1 : ℕ) : ℝ) ∧
    linVal ((0 + 1) / 2) 1 (5 / 2) (0 + 1) - linVal ((0 + 1) / 2) 1 (5 / 2) 0 =
      (1 - (0 + 1) / 2) / ((5 / 2 - 1 : ℕ) : ℝ) ∧
    linVal 0 ((0 + 1) / 2) (5 / 2) (0 + 1) - linVal 0 ((0 + 1) / 2) (5 / 2) 0 =
      ((0 + 1) / 2 - 0) / ((5 / 2 - 1 : ℕ) : ℝ) ∧
    linVal ((0 + 1) / 2) 1 (5 / 2) (0 + 1) - linVal ((0 + 1) / 2) 1 (5 / 2) 0 =
      (1 - (0 + 1) / 2) / ((5 / 2 - 1 : ℕ) : ℝ)) :=
  sweep_dual_linear_halves (init 1e-6 10e-6 300e-9 0.1 1e16 3.9 0.2) 0 1 0 1 5 0

/-- C6 counterexample: with the valid parameters `L = W = mu = 1 > 0` and
`n0 = 0` (the spec allows `n0 ≥ 0`), at `Vgs = Vdirac = 0` the carrier density
vanishes, so `drain_current(0, 1) = 0` is not positive although `Vds = 1 > 0`. -/
theorem drain_current_sign_cex :
    (init 1 1 1 1 0 3.9 0).drain_current 0 1 = 0 ∧
    ¬ (0 < (init 1 1 1 1 0 3.9 0).drain_current 0 1) := by
  have h : (init 1 1 1 1 0 3.9 0).drain_current 0 1 = 0 := by
    show (1 : ℝ) * ((1 : ℝ) / 1) * 1.602e-19 *
      Real.sqrt ((0 : ℝ) ^ 2 +
        (3.9 * 8.854e-12 / 1 / 1.602e-19 * ((0 : ℝ) - 0)) ^ 2) * 1 = 0
    rw [sub_self, mul_zero, zero_pow (two_ne_zero), add_zero, Real.sqrt_zero]
    ring
  exact ⟨h, by rw [h]; exact lt_irrefl 0⟩

/-- Every positive scaling preserves the sign function. -/
theorem real_sign_mul_pos (c x : ℝ) (hc : 0 < c) :
    Real.sign (c * x) = Real.sign x := by
  rcases lt_trichotomy x 0 with hx | hx | hx
  · rw [Real.sign_of_neg hx, Real.sign_of_neg (mul_neg_of_pos_of_neg hc hx)]
  · rw [hx, mul_zero]
  · rw [Real.sign_of_pos hx, Real.sign_of_pos (mul_pos hc hx)]

/-- C6 (amended: the sign statement needs strictly positive `L`, `W`, `mu`
and `n0 > 0` — with `n0 = 0` the current can vanish at `Vgs = Vdirac` even
for `Vds ≠ 0`): for devices built with such parameters the sign of
`drain_current(Vgs, Vds)` equals the sign of `Vds`, while
`drain_current(Vgs, 0) = 0` holds for every model `m` whatsoever (the
positivity hypotheses constrain only the constructed device of the sign
conjunct, not `m`). -/
theorem drain_current_sign (cl cw tx mob icd dc vd : ℝ)
    (m : GFETSimulatorAmbipolar) (hL : 0 < cl)
    (hW : 0 < cw) (hmu : 0 < mob) (hn0 : 0 < icd) (Vgs Vds : ℝ) :
    Real.sign ((init cl cw tx mob icd dc vd).drain_current Vgs Vds) =
      Real.sign Vds ∧
    m.drain_current Vgs 0 = 0 := by
  constructor
  · have hcd : 0 < (init cl cw tx mob icd dc vd).carrier_density Vgs := by
      show 0 < Real.sqrt (icd ^ 2 +
        (dc * 8.854e-12 / tx / 1.602e-19 * (Vgs - vd)) ^ 2)
      apply Real.sqrt_pos.mpr
      have h1 : 0 < icd ^ 2 := pow_pos hn0 2
      have h2 : 0 ≤ (dc * 8.854e-12 / tx / 1.602e-19 * (Vgs - vd)) ^ 2 :=
        sq_nonneg _
      linarith
    have hc : 0 < mob * (cw / cl) * (1.602e-19 : ℝ) *
        (init cl cw tx mob icd dc vd).carrier_density Vgs :=
      mul_pos (mul_pos (mul_pos hmu (div_pos hW hL)) (by norm_num)) hcd
    exact real_sign_mul_pos _ Vds hc
  · show m.mu * (m.W / m.L) * m.q * m.carrier_density Vgs * 0 = 0
    exact mul_zero _

/-- Witness for C6: the sign conjunct at the concrete device of
`src/main.py` with `Vgs = 0`, `Vds = -0.3`; the zero-bias conjunct at the
`n0 = 0` device, showing it needs none of the positivity hypotheses. -/
theorem drain_current_sign_witness :
    (0 : ℝ) < 1e-6 ∧ (0 : ℝ) < 10e-6 ∧ (0 : ℝ) < 0.1 ∧ (0 : ℝ) < 1e16 ∧
    (Real.sign ((init 1e-6 10e-6 300e-9 0.1 1e16 3.9 0.2).drain_current 0
        (-0.3)) = Real.sign (-0.3) ∧
      (init 1 1 1 1 0 3.9 0).drain_current 0 0 = 0) :=
  ⟨by norm_num, by norm_num, by norm_num, by norm_num,
    drain_current_sign 1e-6 10e-6 300e-9 0.1 1e16 3.9 0.2
      (init 1 1 1 1 0 3.9 0) (by norm_num)
      (by norm_num) (by norm_num) (by norm_num) 0 (-0.3)⟩

/-- C9: the methods are pure — the post-state of the state-passing forms of
`carrier_density`, `drain_current`, `sweep` and `load_custom_sweep` is the
input model, every stored field (`L`, `W`, `tox`, `mu`, `n0`, `kappa`, `Cox`,
`q`, `Vdirac`) survives a `sweep` call unchanged, `Cox` is the value
`dielectric_const * epsilon_0 / tox` fixed at construction, and repeating a
`sweep` with the same arguments on the post-state model returns the same
result table. -/
theorem model_pure_frame (m : GFETSimulatorAmbipolar) (Vgs Vds : ℝ)
    (r1 r2 : ℝ × ℝ) (st : String) (N : ℕ) (vl dl : List ℝ)
    (cl cw tx mob icd dc vd : ℝ) :
    (m.carrier_densityS Vgs).2 = m ∧
    (m.drain_currentS Vgs Vds).2 = m ∧
    (m.sweepS r1 r2 st N).2 = m ∧
    (m.load_custom_sweepS vl dl).2 = m ∧
    ((m.sweepS r1 r2 st N).2).L = m.L ∧
    ((m.sweepS r1 r2 st N).2).W = m.W ∧
    ((m.sweepS r1 r2 st N).2).tox = m.tox ∧
    ((m.sweepS r1 r2 st N).2).mu = m.mu ∧
    ((m.sweepS r1 r2 st N).2).n0 = m.n0 ∧
    ((m.sweepS r1 r2 st N).2).kappa = m.kappa ∧
    ((m.sweepS r1 r2 st N).2).Cox = m.Cox ∧
    ((m.sweepS r1 r2 st N).2).q = m.q ∧
    ((m.sweepS r1 r2 st N).2).Vdirac = m.Vdirac ∧
    (init cl cw tx mob icd dc vd).Cox = dc * 8.854e-12 / tx ∧
    ((m.sweepS r1 r2 st N).2).sweep r1 r2 st N = (m.sweepS r1 r2 st N).1 :=
  ⟨rfl, rfl, rfl, rfl, rfl, rfl, rfl, rfl, rfl, rfl, rfl, rfl, rfl, rfl, rfl⟩

/-- C10: in a dual-linear sweep with even `num_points = N ≥ 4` and
`start ≠ stop`, the midpoint occurs twice consecutively on each generated
axis (at offsets `N/2 - 1` and `N/2`), and the result table holds the bias
combination `(midVgs, midVds)` at two distinct positions — a duplicated
midpoint sample. -/
theorem dual_linear_midpoint_dup (m : GFETSimulatorAmbipolar)
    (a1 b1 a2 b2 : ℝ) (N : ℕ) (hN : 4 ≤ N) (hev : N % 2 = 0)
    (h1 : a1 ≠ b1) (h2 : a2 ≠ b2) :
    (dualLinear a1 b1 N)[N / 2 - 1]? = some ((a1 + b1) / 2) ∧
    (dualLinear a1 b1 N)[N / 2]? = some ((a1 + b1) / 2) ∧
    (dualLinear a2 b2 N)[N / 2 - 1]? = some ((a2 + b2) / 2) ∧
    (dualLinear a2 b2 N)[N / 2]? = some ((a2 + b2) / 2) ∧
    m.sweep (a1, b1) (a2, b2) "dual-linear" N =
      Except.ok (m.tabulate (dualLinear a1 b1 N) (dualLinear a2 b2 N)) ∧
    (N / 2 - 1) * (2 * (N / 2)) + (N / 2 - 1) ≠
      (N / 2 - 1) * (2 * (N / 2)) + N / 2 ∧
    (m.tabulate (dualLinear a1 b1 N)
        (dualLinear a2 b2 N))[(N / 2 - 1) * (2 * (N / 2)) + (N / 2 - 1)]? =
      some ⟨(a1 + b1) / 2, (a2 + b2) / 2,
        m.drain_current ((a1 + b1) / 2) ((a2 + b2) / 2)⟩ ∧
    (m.tabulate (dualLinear a1 b1 N)
        (dualLinear a2 b2 N))[(N / 2 - 1) * (2 * (N / 2)) + N / 2]? =
      some ⟨(a1 + b1) / 2, (a2 + b2) / 2,
        m.drain_current ((a1 + b1) / 2) ((a2 + b2) / 2)⟩ := by
  have hk : 2 ≤ N / 2 := by omega
  refine ⟨dualLinear_get_midL a1 b1 N hk,
    dualLinear_get_midR a1 b1 N (by omega),
    dualLinear_get_midL a2 b2 N hk,
    dualLinear_get_midR a2 b2 N (by omega), ?_, by omega, ?_, ?_⟩
  · unfold GFETSimulatorAmbipolar.sweep
    rw [if_neg (by decide), if_neg (by decide), if_pos rfl]
  · have h := tabulate_get m (dualLinear a1 b1 N) (dualLinear a2 b2 N)
      (N / 2 - 1) (N / 2 - 1) _ _ (dualLinear_get_midL a1 b1 N hk)
      (dualLinear_get_midL a2 b2 N hk)
    rwa [dualLinear_length] at h
  · have h := tabulate_get m (dualLinear a1 b1 N) (dualLinear a2 b2 N)
      (N / 2 - 1) (N / 2) _ _ (dualLinear_get_midL a1 b1 N hk)
      (dualLinear_get_midR a2 b2 N (by omega))
    rwa [dualLinear_length] at h

/-- Witness for C10 at ranges `(0, 1)`, `num_points = 4`. -/
theorem dual_linear_midpoint_dup_witness :
    4 ≤ 4 ∧ 4 % 2 = 0 ∧ (0 : ℝ) ≠ 1 ∧
    ((dualLinear 0 1 4)[4 / 2 - 1]? = some ((0 + 1) / 2) ∧
    (dualLinear 0 1 4)[4 / 2]? = some ((0 + 1) / 2) ∧
    (dualLinear 0 1 4)[4 / 2 - 1]? = some ((0 + 1) / 2) ∧
    (dualLinear 0 1 4)[4 / 2]? = some ((0 + 1) / 2) ∧
    (init 1e-6 10e-6 300e-9 0.1 1e16 3.9 0.2).sweep (0, 1) (0, 1)
        "dual-linear" 4 =
      Except.ok ((init 1e-6 10e-6 300e-9 0.1 1e16 3.9 0.2).tabulate
        (dualLinear 0 1 4) (dualLinear 0 1 4)) ∧
    (4 / 2 - 1) * (2 * (4 / 2)) + (4 / 2 - 1) ≠
      (4 / 2 - 1) * (2 * (4 / 2)) + 4 / 2 ∧
    ((init 1e-6 10e-6 300e-9 0.1 1e16 3.9 0.2).tabulate (dualLinear 0 1 4)
        (dualLinear 0 1 4))[(4 / 2 - 1) * (2 * (4 / 2)) + (4 / 2 - 1)]? =
      some ⟨(0 + 1) / 2, (0 + 1) / 2,
        (init 1e-6 10e-6 300e-9 0.1 1e16 3.9 0.2).drain_current ((0 + 1) / 2)
          ((0 + 1) / 2)⟩ ∧
    ((init 1e-6 10e-6 300e-9 0.1 1e16 3.9 0.2).tabulate (dualLinear 0 1 4)
        (dualLinear 0 1 4))[(4 / 2 - 1) * (2 * (4 / 2)) + 4 / 2]? =
      some ⟨(0 + 1) / 2, (0 + 1) / 2,
        (init 1e-6 10e-6 300e-9 0.1 1e16 3.9 0.2).drain_current ((0 + 1) / 2)
          ((0 + 1) / 2)⟩) :=
  ⟨by norm_num, by norm_num, by norm_num,
    dual_linear_midpoint_dup (init 1e-6 10e-6 300e-9 0.1 1e16 3.9 0.2)
      0 1 0 1 4 (by norm_num) (by norm_num) (by norm_num) (by norm_num)⟩
